import Mathlib

/-!
# Verification of the Binance CLI trader (`trader.py`)

Shallow embedding of the scheduled-order trading tool.  Pure pieces of the
source (signature generation, parameter construction, time parsing, the
balance filter, the countdown loop) are translated into executable Lean
definitions; the HTTP transport is modelled by an explicit outcome type that
records the status code and the results of the body-parsing operations the
source performs.  Machine integers of the hash are `Nat` with explicit
`% 2^32`.
-/

namespace Trader

/-! ## Bytes, UTF-8 and lowercase hex -/

/-- UTF-8 encoding of a single character (code point), as in Python's
`str.encode("utf-8")`. -/
def utf8Char (c : Char) : List Nat :=
  let n := c.toNat
  if n < 0x80 then [n]
  else if n < 0x800 then [0xC0 + n / 64, 0x80 + n % 64]
  else if n < 0x10000 then [0xE0 + n / 4096, 0x80 + n / 64 % 64, 0x80 + n % 64]
  else [0xF0 + n / 262144, 0x80 + n / 4096 % 64, 0x80 + n / 64 % 64, 0x80 + n % 64]

/-- The UTF-8 bytes of a string, as in `s.encode("utf-8")`. -/
def strBytes (s : String) : List Nat :=
  (s.data.map utf8Char).flatten

/-- The sixteen lowercase hexadecimal digit characters. -/
def hexDigit (n : Nat) : Char :=
  "0123456789abcdef".data.getD n '0'

/-- Two lowercase hex characters of one byte. -/
def byteHex (b : Nat) : List Char :=
  [hexDigit (b / 16 % 16), hexDigit (b % 16)]

/-- Lowercase hex rendering of a byte list, as in `hexdigest()`. -/
def hexOfBytes (bs : List Nat) : String :=
  ⟨(bs.map byteHex).flatten⟩

/-- Is `c` one of the sixteen lowercase hex digit characters? -/
def isLowerHexDigit (c : Char) : Bool :=
  "0123456789abcdef".data.contains c

/-! ## SHA-256 (FIPS 180-4), on `Nat` reduced mod `2^32` -/

def w32 (x : Nat) : Nat := x % 4294967296

def rotr (n x : Nat) : Nat := w32 ((x >>> n) ||| (x <<< (32 - n)))

def shr (n x : Nat) : Nat := x >>> n

def bigSigma0 (x : Nat) : Nat := (rotr 2 x) ^^^ (rotr 13 x) ^^^ (rotr 22 x)
def bigSigma1 (x : Nat) : Nat := (rotr 6 x) ^^^ (rotr 11 x) ^^^ (rotr 25 x)
def smallSigma0 (x : Nat) : Nat := (rotr 7 x) ^^^ (rotr 18 x) ^^^ (shr 3 x)
def smallSigma1 (x : Nat) : Nat := (rotr 17 x) ^^^ (rotr 19 x) ^^^ (shr 10 x)
def chF (x y z : Nat) : Nat := (x &&& y) ^^^ ((4294967295 - x) &&& z)
def majF (x y z : Nat) : Nat := (x &&& y) ^^^ (x &&& z) ^^^ (y &&& z)

/-- The SHA-256 round constants (FIPS 180-4 §4.2.2), in decimal. -/
def sha256K : List Nat :=
  [1116352408, 1899447441, 3049323471, 3921009573, 961987163, 1508970993,
   2453635748, 2870763221, 3624381080, 310598401, 607225278, 1426881987,
   1925078388, 2162078206, 2614888103, 3248222580, 3835390401, 4022224774,
   264347078, 604807628, 770255983, 1249150122, 1555081692, 1996064986,
   2554220882, 2821834349, 2952996808, 3210313671, 3336571891, 3584528711,
   113926993, 338241895, 666307205, 773529912, 1294757372, 1396182291,
   1695183700, 1986661051, 2177026350, 2456956037, 2730485921, 2820302411,
   3259730800, 3345764771, 3516065817, 3600352804, 4094571909, 275423344,
   430227734, 506948616, 659060556, 883997877, 958139571, 1322822218,
   1537002063, 1747873779, 1955562222, 2024104815, 2227730452, 2361852424,
   2428436474, 2756734187, 3204031479, 3329325298]

/-- Working state of the compression function. -/
structure Sha256State where
  a : Nat
  b : Nat
  c : Nat
  d : Nat
  e : Nat
  f : Nat
  g : Nat
  h : Nat
deriving DecidableEq

/-- The SHA-256 initial hash value (FIPS 180-4 §5.3.3), in decimal. -/
def sha256H0 : Sha256State :=
  ⟨1779033703, 3144134277, 1013904242, 2773480762,
   1359893119, 2600822924, 528734635, 1541459225⟩

/-- One compression round for round constant `k` and schedule word `w`. -/
def sha256Round (s : Sha256State) (k w : Nat) : Sha256State :=
  let t1 := w32 (s.h + bigSigma1 s.e + chF s.e s.f s.g + k + w)
  let t2 := w32 (bigSigma0 s.a + majF s.a s.b s.c)
  ⟨w32 (t1 + t2), s.a, s.b, s.c, w32 (s.d + t1), s.e, s.f, s.g⟩

/-- Extend sixteen schedule words with one more word. -/
def extendSchedule (ws : List Nat) : List Nat :=
  let n := ws.length
  ws ++ [w32 (smallSigma1 (ws.getD (n - 2) 0) + ws.getD (n - 7) 0 +
              smallSigma0 (ws.getD (n - 15) 0) + ws.getD (n - 16) 0)]

/-- The 64-word message schedule of one block. -/
def sha256Schedule (block : List Nat) : List Nat :=
  (List.range 48).foldl (fun ws _ => extendSchedule ws) block

/-- Big-endian 32-bit word from four bytes at offset `4*i` of a block. -/
def wordAt (bs : List Nat) (i : Nat) : Nat :=
  bs.getD (4 * i) 0 * 16777216 + bs.getD (4 * i + 1) 0 * 65536 +
  bs.getD (4 * i + 2) 0 * 256 + bs.getD (4 * i + 3) 0

/-- The sixteen words of a 64-byte block. -/
def blockWords (bs : List Nat) : List Nat :=
  (List.range 16).map (wordAt bs)

/-- Compress one 64-byte block into the running hash state. -/
def sha256Compress (st : Sha256State) (block : List Nat) : Sha256State :=
  let ws := sha256Schedule (blockWords block)
  let fin := (sha256K.zip ws).foldl (fun s kw => sha256Round s kw.1 kw.2) st
  ⟨w32 (st.a + fin.a), w32 (st.b + fin.b), w32 (st.c + fin.c), w32 (st.d + fin.d),
   w32 (st.e + fin.e), w32 (st.f + fin.f), w32 (st.g + fin.g), w32 (st.h + fin.h)⟩

/-- Big-endian eight-byte encoding of a length in bits. -/
def be64 (n : Nat) : List Nat :=
  [n / 2 ^ 56 % 256, n / 2 ^ 48 % 256, n / 2 ^ 40 % 256, n / 2 ^ 32 % 256,
   n / 2 ^ 24 % 256, n / 2 ^ 16 % 256, n / 2 ^ 8 % 256, n % 256]

/-- Big-endian four-byte encoding of a 32-bit word. -/
def be32 (n : Nat) : List Nat :=
  [n / 2 ^ 24 % 256, n / 2 ^ 16 % 256, n / 2 ^ 8 % 256, n % 256]

/-- SHA-256 padding: `0x80`, zeros to 56 mod 64, then the bit length. -/
def sha256Pad (msg : List Nat) : List Nat :=
  msg ++ [0x80] ++ List.replicate ((119 - msg.length % 64) % 64) 0 ++
    be64 (msg.length * 8)

/-- The final hash state bytes, big-endian word by word. -/
def stateBytes (s : Sha256State) : List Nat :=
  be32 s.a ++ be32 s.b ++ be32 s.c ++ be32 s.d ++
  be32 s.e ++ be32 s.f ++ be32 s.g ++ be32 s.h

/-- SHA-256 digest (32 bytes) of a byte list. -/
def sha256 (msg : List Nat) : List Nat :=
  let padded := sha256Pad msg
  let nBlocks := padded.length / 64
  stateBytes ((List.range nBlocks).foldl
    (fun st i => sha256Compress st ((padded.drop (64 * i)).take 64)) sha256H0)

/-! ## HMAC-SHA256 (RFC 2104) -/

/-- HMAC-SHA256 of `msg` under `key`, as `hmac.new(key, msg, sha256)`. -/
def hmacSha256 (key msg : List Nat) : List Nat :=
  let key' := if 64 < key.length then sha256 key else key
  let padded := key' ++ List.replicate (64 - key'.length) 0
  let ipad := padded.map (fun b => b ^^^ 0x36)
  let opad := padded.map (fun b => b ^^^ 0x5c)
  sha256 (opad ++ sha256 (ipad ++ msg))

/-! ## The Signer (`BinanceTrader._generate_signature`) -/

/-- `"&".join([f"\x7bk\x7d=\x7bv\x7d" for k, v in params.items()])`:
the query string over the ordered parameter mapping. -/
def queryString (params : List (String × String)) : String :=
  String.intercalate "&" (params.map fun kv => kv.1 ++ "=" ++ kv.2)

/-- `BinanceTrader._generate_signature`: HMAC-SHA256 of the UTF-8 query
string keyed by the UTF-8 secret, rendered as a lowercase hex digest. -/
def generate_signature (secret : String) (params : List (String × String)) : String :=
  hexOfBytes (hmacSha256 (strBytes secret) (strBytes (queryString params)))

/-- The spec's reading of the serialization: `key1=value1&key2=value2...`
joined by a single ampersand in insertion order. -/
def queryStringSpec : List (String × String) → String
  | [] => ""
  | (k, v) :: rest =>
      k ++ "=" ++ v ++ (if rest.isEmpty then "" else "&" ++ queryStringSpec rest)

theorem intercalate_go_spec (sep : String) (as : List String) (acc : String) :
    String.intercalate.go acc sep as =
      acc ++ (as.map (fun a => sep ++ a)).foldr (· ++ ·) "" := by
  induction as generalizing acc with
  | nil => simp [String.intercalate.go]
  | cons a as ih =>
      simp only [String.intercalate.go, ih, List.map_cons, List.foldr_cons]
      simp [String.append_assoc]

theorem queryString_eq_spec (params : List (String × String)) :
    queryString params = queryStringSpec params := by
  induction params with
  | nil => rfl
  | cons kv rest ih =>
      obtain ⟨k, v⟩ := kv
      cases rest with
      | nil =>
          simp [queryString, String.intercalate, String.intercalate.go, queryStringSpec]
      | cons kv' rest' =>
          show queryString ((k, v) :: kv' :: rest') =
            k ++ "=" ++ v ++
              (if (kv' :: rest').isEmpty then "" else "&" ++ queryStringSpec (kv' :: rest'))
          rw [← ih]
          simp only [queryString, String.intercalate, List.map_cons, List.isEmpty_cons]
          rw [intercalate_go_spec, intercalate_go_spec]
          simp [String.append_assoc]

/-! ## Signed parameter mappings (`get_account_info`, `place_limit_order`)

The ordered `dict` of the source is a `List (String × String)`;
`params["signature"] = self._generate_signature(params)` computes the
signature over the mapping before the key is inserted, then appends the
`signature` key at the end (Python dicts preserve insertion order). -/

/-- Parameter mapping of `get_account_info` after the signature insertion:
`{"timestamp": ts, "signature": sig}`. -/
def get_account_info_signed (secret : String) (ts : Nat) : List (String × String) :=
  let base := [("timestamp", toString ts)]
  base ++ [("signature", generate_signature secret base)]

/-- Python `str.upper` on the ASCII range, as applied to `symbol`/`side`:
uppercase every character. -/
def pyUpper (s : String) : String :=
  ⟨s.data.map Char.toUpper⟩

/-- Decimal rendering of the Python `float` arguments `quantity`/`price`
inside the f-string `f"\x7bk\x7d=\x7bv\x7d"`; exact for integral values
(`-1.0` renders as `"-1.0"`), and abstracted to the `Rat` rendering
otherwise. -/
def pyFloatStr (q : Rat) : String :=
  if q.den = 1 then toString q.num ++ ".0" else toString q

/-- The ordered parameter mapping built by `place_limit_order` before
signing. -/
def place_limit_order_params (symbol side : String) (quantity price : Rat)
    (ts : Nat) : List (String × String) :=
  [("symbol", pyUpper symbol), ("side", pyUpper side), ("type", "LIMIT"),
   ("timeInForce", "GTC"), ("quantity", pyFloatStr quantity),
   ("price", pyFloatStr price), ("timestamp", toString ts)]

/-- Parameter mapping of `place_limit_order` after the signature insertion.
No validation of `quantity`/`price` occurs anywhere on this path. -/
def place_limit_order_signed (secret symbol side : String) (quantity price : Rat)
    (ts : Nat) : List (String × String) :=
  let base := place_limit_order_params symbol side quantity price ts
  base ++ [("signature", generate_signature secret base)]

/-! ## `parse_time_input` (the TimeResolver)

`datetime.now(shanghai_tz)` is a parameter: a day index plus the
microsecond of that day, on the Asia/Shanghai wall clock (fixed UTC+8, no
DST).  The
constructed target has second and microsecond zero, so the source's
aware-datetime comparison `target_time < now` is the comparison of
(day, microsecond-of-day) pairs. -/

/-- A Shanghai wall-clock instant: day index and microsecond of day. -/
structure ShTime where
  day : Int
  us : Nat
deriving DecidableEq

/-- Microseconds in a calendar day. -/
def usPerDay : Nat := 86400000000

/-- A `ShTime` as a single microsecond count, for instant comparison. -/
def ShTime.toUs (t : ShTime) : Int :=
  t.day * usPerDay + t.us

/-- Digits with single underscores between them, as accepted by Python's
`int` (grammar `digit (("_")? digit)*`). -/
def pyDigits : List Char → Option Nat
  | [] => some 0
  | '_' :: c :: rest =>
      if c.isDigit then
        (pyDigits rest).map fun n =>
          n + (c.toNat - 48) * 10 ^ (rest.filter Char.isDigit).length
      else none
  | '_' :: [] => none
  | c :: rest =>
      if c.isDigit then
        (pyDigits rest).map fun n =>
          n + (c.toNat - 48) * 10 ^ (rest.filter Char.isDigit).length
      else none

/-- Python `str.split(sep)` for a one-character separator, on character
lists: splitting the empty string yields one empty field. -/
def pySplitChar (sep : Char) : List Char → List (List Char)
  | [] => [[]]
  | c :: rest =>
      let r := pySplitChar sep rest
      if c = sep then [] :: r
      else
        match r with
        | h :: t => (c :: h) :: t
        | [] => [[c]]

/-- Python `str.strip()` on the modelled (ASCII) whitespace. -/
def pyStrip (l : List Char) : List Char :=
  ((l.dropWhile Char.isWhitespace).reverse.dropWhile Char.isWhitespace).reverse

/-- A digit run must open with a digit (no leading underscore). -/
def pyIntDigits (l : List Char) : Option Nat :=
  match l with
  | c :: _ => if c.isDigit then pyDigits l else none
  | [] => none

/-- Python `int(str)`: strip whitespace, optional sign, then digits with
optional single underscores between them; `None` models `ValueError`. -/
def pyInt (s : String) : Option Int :=
  match pyStrip s.data with
  | '-' :: rest => (pyIntDigits rest).map fun n => -(n : Int)
  | '+' :: rest => (pyIntDigits rest).map fun n => (n : Int)
  | l => (pyIntDigits l).map fun n => (n : Int)

/-- `hour, minute = map(int, time_str.split(':'))`: `None` models the
`ValueError` raised on a wrong field count or a non-numeric field. -/
def pyTimeSplit (s : String) : Option (Int × Int) :=
  match pySplitChar ':' s.data with
  | [a, b] =>
      match pyInt ⟨a⟩, pyInt ⟨b⟩ with
      | some h, some m => some (h, m)
      | _, _ => none
  | _ => none

/-- The error raised by `parse_time_input` (`argparse.ArgumentTypeError`,
the spec's `InvalidFormat`). -/
inductive TimeError where
  | invalidFormat
deriving DecidableEq

/-- `parse_time_input`: split and parse the two fields, build today's date
at `hour:minute` (the `datetime` constructor raises `ValueError` unless
`0 ≤ hour ≤ 23` and `0 ≤ minute ≤ 59`), and add one day when the target is
strictly before `now`.  Every `ValueError` is caught and becomes
`invalidFormat`. -/
def parse_time_input (now : ShTime) (s : String) : Except TimeError ShTime :=
  match pyTimeSplit s with
  | none => .error .invalidFormat
  | some (h, m) =>
      if 0 ≤ h ∧ h ≤ 23 ∧ 0 ≤ m ∧ m ≤ 59 then
        let tgtUs : Nat := (h * 60 + m).toNat * 60000000
        if tgtUs < now.us then .ok ⟨now.day + 1, tgtUs⟩
        else .ok ⟨now.day, tgtUs⟩
      else .error .invalidFormat

/-- Bool shorthand: inputs on which `parse_time_input` hits a `ValueError`
(unsplittable/non-numeric, or hour/minute out of the `datetime` range). -/
def badTimeInput (s : String) : Bool :=
  match pyTimeSplit s with
  | none => true
  | some (h, m) => decide (h < 0 ∨ 23 < h ∨ m < 0 ∨ 59 < m)

/-! ## Transport model (`requests`) for `get_account_info` -/

/-- An HTTP response to the account GET: status code, and the result of
`response.json()` (`none` when the body is not JSON, in which case the
call raises). -/
structure GetResponse (α : Type) where
  status : Nat
  json : Option α
deriving DecidableEq

/-- Outcome of `requests.get`: either the call raised, or a response. -/
inductive GetOutcome (α : Type) where
  | exn (msg : String)
  | resp (r : GetResponse α)
deriving DecidableEq

/-- `get_account_info` after signing: `return response.json()` inside
`try/except Exception`, which prints and returns `None` on any raise.  The
status code is never consulted on this path. -/
def get_account_info {α : Type} : GetOutcome α → Option α
  | .exn _ => none
  | .resp r => r.json

/-! ## Transport model (`requests`) for `place_limit_order` -/

/-- An HTTP response to the order POST: status code, the value of
`json.loads(response.text)["msg"]` when body and key exist (`none` when
that expression would raise), and the result of `response.json()`. -/
structure PostResponse (α : Type) where
  status : Nat
  msgField : Option String
  json : Option α
deriving DecidableEq

/-- A raised `requests.exceptions.RequestException`: the attached response
(`None` for connection-level failures and for `response.json()` decode
errors) and its `str(e)` rendering. -/
structure ReqError (α : Type) where
  response : Option (PostResponse α)
  message : String
deriving DecidableEq

/-- Result of one `place_limit_order` call: the parsed success body, a
caught failure (the printed message, `return None`), or an exception that
escapes the `except` block uncaught. -/
inductive PlaceResult (α : Type) where
  | success (v : α)
  | failure (msg : String)
  | uncaught (msg : String)
deriving DecidableEq

/-- `requests.models.Response.__bool__` — `if e.response` is `True` iff
`status_code < 400` (`Response.ok`), not a `None` test. -/
def responseTruthy {α : Type} (r : PostResponse α) : Bool :=
  r.status < 400

/-- `str(e)` of the `HTTPError` raised by `response.raise_for_status()`
(models `"400 Client Error: ..."`). -/
def httpErrorStr (status : Nat) : String :=
  toString status ++ " Error"

/-- The `except requests.exceptions.RequestException` block:
`error_msg = json.loads(e.response.text)["msg"] if e.response else str(e)`,
then print and `return None`.  When the truthiness test succeeds but the
`msg` extraction raises, the raise escapes the handler. -/
def handleRequestException {α : Type} (e : ReqError α) : PlaceResult α :=
  match e.response with
  | some r =>
      if responseTruthy r then
        match r.msgField with
        | some m => .failure m
        | none => .uncaught "json.loads/KeyError"
      else .failure e.message
  | none => .failure e.message

/-- Outcome of `requests.post`: either the call raised, or a response. -/
inductive PostOutcome (α : Type) where
  | raised (e : ReqError α)
  | resp (r : PostResponse α)
deriving DecidableEq

/-- The transport half of `place_limit_order` (the mapping is already
signed): `raise_for_status()` raises `HTTPError` with the response
attached for statuses 400–599, then `response.json()` raises a decode
error with no attached response on a malformed body; all raises funnel
into the `except` block. -/
def place_limit_order_transport {α : Type} : PostOutcome α → PlaceResult α
  | .raised e => handleRequestException e
  | .resp r =>
      if 400 ≤ r.status ∧ r.status ≤ 599 then
        handleRequestException ⟨some r, httpErrorStr r.status⟩
      else
        match r.json with
        | some v => .success v
        | none => handleRequestException ⟨none, "JSONDecodeError"⟩

/-! ## `print_balance` -/

/-- One entry of `account["balances"]`; `free` is the numeric value that
`float(balance["free"])` parses out of the payload string. -/
structure Balance where
  asset : String
  free : Rat
deriving DecidableEq

/-- The entries whose line `print_balance` prints: the loop body prints
exactly when `free > 0`. -/
def print_balance (balances : List Balance) : List Balance :=
  balances.filter fun b => decide (0 < b.free)

/-! ## The countdown loop

`while True: remaining = scheduled_time - now; if remaining ≤ 0: break;
print(remaining); sleep(1)`.  `clock i` is the wall-clock second at the
`i`-th iteration's `datetime.now` call; `target - clock i` is
`remaining.total_seconds()`.  The fuel argument makes the recursion
structural; the termination theorem discharges it. -/

/-- Samples printed by the countdown loop from iteration `i` on, plus a
flag telling whether the loop reached its `break` within `fuel`
iterations. -/
def countdown (target : Int) (clock : Nat → Int) : Nat → Nat → List Int × Bool
  | 0, _ => ([], false)
  | fuel + 1, i =>
      let remaining := target - clock i
      if remaining ≤ 0 then ([], true)
      else
        let r := countdown target clock fuel (i + 1)
        (remaining :: r.1, r.2)

/-! ## Digest shape lemmas -/

theorem stateBytes_length (s : Sha256State) : (stateBytes s).length = 32 := by
  simp [stateBytes, be32]

theorem sha256_length (msg : List Nat) : (sha256 msg).length = 32 :=
  stateBytes_length _

theorem hmacSha256_length (key msg : List Nat) : (hmacSha256 key msg).length = 32 :=
  sha256_length _

theorem hexOfBytes_length (bs : List Nat) : (hexOfBytes bs).length = 2 * bs.length := by
  induction bs with
  | nil => rfl
  | cons b t ih =>
      show (byteHex b ++ (t.map byteHex).flatten).length = 2 * (b :: t).length
      have : ((t.map byteHex).flatten).length = 2 * t.length := ih
      simp [byteHex, this, List.length_cons]
      omega

theorem hexDigit_lower (n : Nat) (h : n < 16) : isLowerHexDigit (hexDigit n) = true := by
  interval_cases n <;> rfl

theorem byteHex_lower (b : Nat) : (byteHex b).all isLowerHexDigit = true := by
  simp only [byteHex, List.all_cons, List.all_nil, Bool.and_true]
  rw [hexDigit_lower _ (Nat.mod_lt _ (by norm_num)),
    hexDigit_lower _ (Nat.mod_lt _ (by norm_num))]
  rfl

theorem hexOfBytes_lower (bs : List Nat) : (hexOfBytes bs).data.all isLowerHexDigit = true := by
  induction bs with
  | nil => rfl
  | cons b t ih =>
      show (byteHex b ++ (t.map byteHex).flatten).all isLowerHexDigit = true
      rw [List.all_append, byteHex_lower]
      exact ih

/-- C1: the signer serializes the ordered mapping as
`key1=value1&key2=value2...` joined by ampersands in insertion order with no
sorting, and returns the 64-character lowercase hexadecimal digest of the
keyed hash; it is pure, so identical mapping and secret always give the
identical signature string. -/
theorem signer_serializes_in_order_and_is_deterministic :
    ∀ (params params' : List (String × String)) (secret secret' : String),
      queryString params = queryStringSpec params
      ∧ (generate_signature secret params).length = 64
      ∧ (generate_signature secret params).data.all isLowerHexDigit = true
      ∧ (params = params' → secret = secret' →
          generate_signature secret params = generate_signature secret' params') := by
  intro params params' secret secret'
  refine ⟨queryString_eq_spec params, ?_, hexOfBytes_lower _, ?_⟩
  · show (hexOfBytes (hmacSha256 _ _)).length = 64
    rw [hexOfBytes_length, hmacSha256_length]
  · intro hp hs
    rw [hp, hs]

theorem signer_serializes_in_order_and_is_deterministic_witness :
    generate_signature "s"
        [("symbol", "BTCUSDT"), ("side", "BUY"), ("type", "LIMIT"),
         ("timeInForce", "GTC"), ("quantity", "1"), ("price", "100"),
         ("timestamp", "1700000000000")]
      = generate_signature "s"
        [("symbol", "BTCUSDT"), ("side", "BUY"), ("type", "LIMIT"),
         ("timeInForce", "GTC"), ("quantity", "1"), ("price", "100"),
         ("timestamp", "1700000000000")] :=
  ((signer_serializes_in_order_and_is_deterministic _ _ "s" "s").2.2.2) rfl rfl

/-- C2: both authenticated requests transmit a mapping whose last key is
`signature`, whose signature value is computed over exactly the preceding
entries in transmitted order, and whose signed string never contains the
`signature` key itself. -/
theorem signed_params_trailing_signature :
    ∀ (secret symbol side : String) (q p : Rat) (ts : Nat),
      get_account_info_signed secret ts
          = [("timestamp", toString ts)]
            ++ [("signature", generate_signature secret [("timestamp", toString ts)])]
      ∧ ((get_account_info_signed secret ts).map Prod.fst).getLast? = some "signature"
      ∧ ((get_account_info_signed secret ts).dropLast.map Prod.fst).contains "signature"
          = false
      ∧ (get_account_info_signed secret ts).getLast?
          = some ("signature",
              generate_signature secret ((get_account_info_signed secret ts).dropLast))
      ∧ place_limit_order_signed secret symbol side q p ts
          = place_limit_order_params symbol side q p ts
            ++ [("signature",
                  generate_signature secret (place_limit_order_params symbol side q p ts))]
      ∧ ((place_limit_order_signed secret symbol side q p ts).map Prod.fst).getLast?
          = some "signature"
      ∧ ((place_limit_order_signed secret symbol side q p ts).dropLast.map
            Prod.fst).contains "signature" = false
      ∧ (place_limit_order_signed secret symbol side q p ts).getLast?
          = some ("signature",
              generate_signature secret
                ((place_limit_order_signed secret symbol side q p ts).dropLast)) :=
  fun _ _ _ _ _ _ => ⟨rfl, rfl, rfl, rfl, rfl, rfl, rfl, rfl⟩

/-- C5 counterexample: a non-2xx (status 400) account response whose body is
valid JSON is returned to the caller as if it were successful account
information, not as a failure. -/
theorem account_info_counterexample :
    get_account_info (GetOutcome.resp (⟨400, some "errorBody"⟩ : GetResponse String))
        = some "errorBody"
    ∧ 299 < 400 :=
  ⟨rfl, by norm_num⟩

/-- C5 amended: a transport exception or a malformed (non-JSON) body yields
the `None` failure result and no exception escapes the handler, but the
status code is never inspected: any response whose body parses as JSON is
returned as account information, 2xx or not. -/
theorem account_info_error_paths {α : Type} :
    (∀ m : String, get_account_info (GetOutcome.exn m : GetOutcome α) = none)
    ∧ (∀ s : Nat, get_account_info (GetOutcome.resp (⟨s, none⟩ : GetResponse α)) = none)
    ∧ (∀ (s : Nat) (v : α), get_account_info (GetOutcome.resp ⟨s, some v⟩) = some v) :=
  ⟨fun _ => rfl, fun _ => rfl, fun _ _ => rfl⟩

/-- C6: on a status-400 order response whose body is
`{"msg": "Insufficient balance"}`, the code prints the generic
`str(HTTPError)` text instead of the exchange message, because
`if e.response` calls `requests.Response.__bool__`, which is `False` for
every status ≥ 400. -/
theorem order_rejection_msg_not_surfaced :
    place_limit_order_transport
        (PostOutcome.resp
          (⟨400, some "Insufficient balance", some "orderJson"⟩ : PostResponse String))
      = .failure "400 Error"
    ∧ ("400 Error" == "Insufficient balance") = false :=
  ⟨rfl, rfl⟩

/-- C7 counterexample: a limit order with quantity `-1` (non-positive) is
signed and handed to transport unchanged — no validation of quantity or
price happens before signing. -/
theorem order_validation_counterexample :
    ((-1 : Rat) ≤ 0)
    ∧ ("quantity", "-1.0")
        ∈ place_limit_order_signed "s" "BTCUSDT" "BUY" (-1) 100 1700000000000
    ∧ ((place_limit_order_signed "s" "BTCUSDT" "BUY" (-1) 100 1700000000000).map
          Prod.fst).contains "signature" = true :=
  ⟨by norm_num, List.mem_append_left _ (by decide), rfl⟩

/-- C7 amended: `place_limit_order` performs no validation: even when
quantity or price is non-positive, the parameter mapping containing them is
signed (trailing `signature` key) and transmitted as is. -/
theorem order_nonpositive_params_still_signed
    (secret symbol side : String) (q p : Rat) (ts : Nat) (_hqp : q ≤ 0 ∨ p ≤ 0) :
    ("quantity", pyFloatStr q) ∈ place_limit_order_signed secret symbol side q p ts
    ∧ ("price", pyFloatStr p) ∈ place_limit_order_signed secret symbol side q p ts
    ∧ ((place_limit_order_signed secret symbol side q p ts).map Prod.fst).getLast?
        = some "signature" := by
  refine ⟨List.mem_append_left _ (by simp [place_limit_order_params]),
    List.mem_append_left _ (by simp [place_limit_order_params]), ?_⟩
  show ((place_limit_order_params symbol side q p ts
      ++ [("signature", _)]).map Prod.fst).getLast? = some "signature"
  simp [List.map_append, List.getLast?_concat]

theorem order_nonpositive_params_still_signed_witness :
    ("quantity", pyFloatStr (-1))
        ∈ place_limit_order_signed "k" "ETHUSDT" "SELL" (-1) (-2) 1700000000001
    ∧ ("price", pyFloatStr (-2))
        ∈ place_limit_order_signed "k" "ETHUSDT" "SELL" (-1) (-2) 1700000000001
    ∧ ((place_limit_order_signed "k" "ETHUSDT" "SELL" (-1) (-2) 1700000000001).map
          Prod.fst).getLast? = some "signature" :=
  order_nonpositive_params_still_signed "k" "ETHUSDT" "SELL" (-1) (-2) 1700000000001
    (Or.inl (by norm_num))

/-- C10: the balance display prints exactly the entries whose free balance
is strictly positive; zero-balance assets are omitted and every positive
one appears. -/
theorem balance_display_prints_positive_exactly :
    ∀ (bs : List Balance) (b : Balance),
      b ∈ print_balance bs ↔ b ∈ bs ∧ 0 < b.free := by
  intro bs b
  simp [print_balance, List.mem_filter]

theorem parse_time_input_none (now : ShTime) (s : String)
    (hs : pyTimeSplit s = none) :
    parse_time_input now s = .error .invalidFormat := by
  unfold parse_time_input
  rw [hs]

theorem parse_time_input_some (now : ShTime) (s : String) (h m : Int)
    (hs : pyTimeSplit s = some (h, m)) :
    parse_time_input now s =
      if 0 ≤ h ∧ h ≤ 23 ∧ 0 ≤ m ∧ m ≤ 59 then
        if (h * 60 + m).toNat * 60000000 < now.us then
          .ok ⟨now.day + 1, (h * 60 + m).toNat * 60000000⟩
        else .ok ⟨now.day, (h * 60 + m).toNat * 60000000⟩
      else .error .invalidFormat := by
  unfold parse_time_input
  rw [hs]

theorem badTimeInput_none (s : String) (hs : pyTimeSplit s = none) :
    badTimeInput s = true := by
  unfold badTimeInput
  rw [hs]

theorem badTimeInput_some (s : String) (h m : Int)
    (hs : pyTimeSplit s = some (h, m)) :
    badTimeInput s = decide (h < 0 ∨ 23 < h ∨ m < 0 ∨ 59 < m) := by
  unfold badTimeInput
  rw [hs]

/-- C3: a well-formed `HH:MM` in range resolves to today's date at that
hour and minute; the result rolls forward exactly one calendar day when
that instant is strictly before now, and otherwise stays on the same day —
never more than one day later, and never before now. -/
theorem time_resolution_same_or_next_day
    (now : ShTime) (s : String) (h m : Int)
    (hs : pyTimeSplit s = some (h, m))
    (hh : 0 ≤ h ∧ h ≤ 23) (hm : 0 ≤ m ∧ m ≤ 59)
    (hnow : now.us < usPerDay) :
    ∃ t : ShTime,
      parse_time_input now s = .ok t
      ∧ t.us = (h * 60 + m).toNat * 60000000
      ∧ (t.day = now.day ∨ t.day = now.day + 1)
      ∧ (t.day = now.day + 1 ↔ t.us < now.us)
      ∧ now.toUs ≤ t.toUs := by
  rw [parse_time_input_some now s h m hs]
  rw [if_pos ⟨hh.1, hh.2, hm.1, hm.2⟩]
  by_cases hlt : (h * 60 + m).toNat * 60000000 < now.us
  · rw [if_pos hlt]
    refine ⟨⟨now.day + 1, (h * 60 + m).toNat * 60000000⟩, rfl, rfl, Or.inr rfl,
      by simpa using hlt, ?_⟩
    show now.day * (usPerDay : Int) + now.us ≤ (now.day + 1) * usPerDay + _
    unfold usPerDay at hnow ⊢
    push_cast
    nlinarith [hnow, Nat.zero_le ((h * 60 + m).toNat * 60000000)]
  · rw [if_neg hlt]
    refine ⟨⟨now.day, (h * 60 + m).toNat * 60000000⟩, rfl, rfl, Or.inl rfl, ?_, ?_⟩
    · simp only [ShTime.us]
      constructor
      · intro hd
        exact absurd hd (by omega)
      · intro hd
        exact absurd hd hlt
    · show now.day * (usPerDay : Int) + now.us ≤ now.day * usPerDay + _
      have : now.us ≤ (h * 60 + m).toNat * 60000000 := Nat.le_of_not_lt hlt
      push_cast
      omega

theorem time_resolution_same_or_next_day_witness :
    (∃ t : ShTime,
      parse_time_input ⟨0, 64740000000⟩ "18:00" = .ok t
      ∧ t.us = ((18 : Int) * 60 + 0).toNat * 60000000
      ∧ (t.day = 0 ∨ t.day = 0 + 1)
      ∧ (t.day = 0 + 1 ↔ t.us < 64740000000)
      ∧ ShTime.toUs ⟨0, 64740000000⟩ ≤ t.toUs)
    ∧ (∃ t : ShTime,
      parse_time_input ⟨0, 64860000000⟩ "18:00" = .ok t
      ∧ t.us = ((18 : Int) * 60 + 0).toNat * 60000000
      ∧ (t.day = 0 ∨ t.day = 0 + 1)
      ∧ (t.day = 0 + 1 ↔ t.us < 64860000000)
      ∧ ShTime.toUs ⟨0, 64860000000⟩ ≤ t.toUs) :=
  ⟨time_resolution_same_or_next_day ⟨0, 64740000000⟩ "18:00" 18 0 (by rfl)
      ⟨by norm_num, by norm_num⟩ ⟨by norm_num, by norm_num⟩ (by norm_num [usPerDay]),
   time_resolution_same_or_next_day ⟨0, 64860000000⟩ "18:00" 18 0 (by rfl)
      ⟨by norm_num, by norm_num⟩ ⟨by norm_num, by norm_num⟩ (by norm_num [usPerDay])⟩

/-- C4: time resolution fails with the InvalidFormat error exactly on the
inputs whose parse or `datetime` construction raises `ValueError`:
non-numeric fields, a field count other than two, or an hour outside
`[0, 23]` or minute outside `[0, 59]`; no other exception and no instant is
produced there. -/
theorem time_resolution_rejects_invalid (now : ShTime) (s : String) :
    parse_time_input now s = .error .invalidFormat ↔ badTimeInput s = true := by
  cases hp : pyTimeSplit s with
  | none => simp [parse_time_input_none now s hp, badTimeInput_none s hp]
  | some hm =>
      obtain ⟨h, m⟩ := hm
      rw [parse_time_input_some now s h m hp, badTimeInput_some s h m hp]
      by_cases hb : 0 ≤ h ∧ h ≤ 23 ∧ 0 ≤ m ∧ m ≤ 59
      · rw [if_pos hb]
        by_cases hlt : (h * 60 + m).toNat * 60000000 < now.us
        · rw [if_pos hlt]
          simp only [reduceCtorEq, false_iff, decide_eq_true_eq]
          omega
        · rw [if_neg hlt]
          simp only [reduceCtorEq, false_iff, decide_eq_true_eq]
          omega
      · rw [if_neg hb]
        simp only [true_iff, decide_eq_true_eq]
        omega

theorem time_resolution_rejects_invalid_witness :
    parse_time_input ⟨0, 0⟩ "25:61" = .error .invalidFormat
    ∧ parse_time_input ⟨0, 0⟩ "abc" = .error .invalidFormat
    ∧ parse_time_input ⟨0, 0⟩ "18" = .error .invalidFormat :=
  ⟨(time_resolution_rejects_invalid ⟨0, 0⟩ "25:61").mpr (by rfl),
   (time_resolution_rejects_invalid ⟨0, 0⟩ "abc").mpr (by rfl),
   (time_resolution_rejects_invalid ⟨0, 0⟩ "18").mpr (by rfl)⟩

/-! ## Countdown loop theorems -/

theorem clock_add (clock : Nat → Int) (hc : ∀ n, clock n + 1 ≤ clock (n + 1))
    (a d : Nat) : clock a + d ≤ clock (a + d) := by
  induction d with
  | zero => simp
  | succ d ih =>
      have h1 := hc (a + d)
      have : a + (d + 1) = a + d + 1 := by omega
      rw [this]
      push_cast at ih ⊢
      omega

theorem countdown_succ (target : Int) (clock : Nat → Int) (fuel i : Nat) :
    countdown target clock (fuel + 1) i
      = if target - clock i ≤ 0 then ([], true)
        else ((target - clock i) :: (countdown target clock fuel (i + 1)).1,
              (countdown target clock fuel (i + 1)).2) := rfl

theorem countdown_spec (target : Int) (clock : Nat → Int)
    (hc : ∀ n, clock n + 1 ≤ clock (n + 1)) :
    ∀ (f i : Nat), target - clock i ≤ f →
      ∃ n : Nat,
        countdown target clock (f + 1) i
          = ((List.range n).map (fun k => target - clock (i + k)), true)
        ∧ (∀ k < n, 0 < target - clock (i + k))
        ∧ target - clock (i + n) ≤ 0 := by
  intro f
  induction f with
  | zero =>
      intro i hi
      have hi' : target - clock i ≤ 0 := by exact_mod_cast hi
      refine ⟨0, ?_, fun k hk => absurd hk (by omega), by simpa using hi'⟩
      rw [countdown_succ, if_pos hi']
      simp
  | succ f ih =>
      intro i hi
      by_cases hr : target - clock i ≤ 0
      · refine ⟨0, ?_, fun k hk => absurd hk (by omega), by simpa using hr⟩
        rw [countdown_succ, if_pos hr]
        simp
      · obtain ⟨n, hcd, hpos, hend⟩ := ih (i + 1) (by have := hc i; omega)
        refine ⟨n + 1, ?_, ?_, ?_⟩
        · rw [countdown_succ, if_neg hr, hcd]
          rw [List.range_succ_eq_map, List.map_cons, List.map_map]
          refine congrArg (fun l => ((target - clock i) :: l, true))
            (List.map_congr_left fun k _ => ?_)
          have hik : i + 1 + k = i + (k + 1) := by omega
          show target - clock (i + 1 + k) = target - clock (i + (k + 1))
          rw [hik]
        · intro k hk
          cases k with
          | zero => simpa using (by omega : (0 : Int) < target - clock i)
          | succ k =>
              have : i + (k + 1) = i + 1 + k := by omega
              rw [this]
              exact hpos k (by omega)
        · have : i + (n + 1) = i + 1 + n := by omega
          rw [this]
          exact hend

/-- C9: under an advancing clock the countdown loop produces a finite list
of remaining-duration samples, all strictly positive and strictly
decreasing, and its `break` fires at exactly the first iteration whose
remaining duration is ≤ 0. -/
theorem countdown_finite_decreasing_terminates
    (target : Int) (clock : Nat → Int)
    (hc : ∀ n, clock n + 1 ≤ clock (n + 1)) :
    ∃ (fuel n : Nat),
      countdown target clock fuel 0
        = ((List.range n).map (fun k => target - clock k), true)
      ∧ (∀ k < n, 0 < target - clock k)
      ∧ target - clock n ≤ 0
      ∧ ((List.range n).map (fun k => target - clock k)).Pairwise (· > ·) := by
  obtain ⟨n, h1, h2, h3⟩ :=
    countdown_spec target clock hc (target - clock 0).toNat 0 (Int.self_le_toNat _)
  refine ⟨(target - clock 0).toNat + 1, n, by simpa using h1,
    fun k hk => by simpa using h2 k hk, by simpa using h3, ?_⟩
  rw [List.pairwise_map]
  refine (List.pairwise_lt_range n).imp ?_
  intro a b hab
  have hca := clock_add clock hc a (b - a)
  have hba : a + (b - a) = b := by omega
  rw [hba] at hca
  have h1le : (1 : Int) ≤ (b - a : Nat) := by
    have : 1 ≤ b - a := by omega
    exact_mod_cast this
  simp only [gt_iff_lt]
  omega

theorem countdown_finite_decreasing_terminates_witness :
    ∃ (fuel n : Nat),
      countdown 3 (fun k => (k : Int)) fuel 0
        = ((List.range n).map (fun k => 3 - ((k : Nat) : Int)), true)
      ∧ (∀ k < n, 0 < 3 - ((k : Nat) : Int))
      ∧ 3 - ((n : Nat) : Int) ≤ 0
      ∧ ((List.range n).map (fun k => 3 - ((k : Nat) : Int))).Pairwise (· > ·) :=
  countdown_finite_decreasing_terminates 3 (fun k => (k : Int))
    (fun n => by push_cast; omega)

end Trader
